import Mathlib

/-!
Verification of the trajectory-reconstruction and rendering pipeline of the
wrsjet repository (src/map.py).  The Python functions `parse_timestamp`,
`get_altitude_color`, `create_aircraft_trajectories`, `get_available_dates`,
`get_last_detection` and `create_map_with_filter`, together with the
JavaScript `getAltitudeColor` embedded in the generated artifact, are given a
shallow embedding below; numeric fields use `ℚ`, nullable CSV fields use
`Option`, and code that can raise (timestamp parsing) returns `Option`.
-/

namespace Wrsjet

/-- Calendar date, modelling Python `datetime.date` as produced by
`df['datetime'].dt.date` in map.py. -/
structure Date where
  year : Nat
  month : Nat
  day : Nat
deriving DecidableEq, Repr

/-- Order on dates: Python compares `date` values lexicographically by
(year, month, day). -/
def Date.le (a b : Date) : Prop :=
  a.year < b.year ∨
    (a.year = b.year ∧
      (a.month < b.month ∨ (a.month = b.month ∧ a.day ≤ b.day)))

instance : DecidableRel Date.le := fun a b => by
  unfold Date.le; infer_instance

/-- Strict order on dates. -/
def Date.lt (a b : Date) : Prop := Date.le a b ∧ a ≠ b

/-- The reversed order used by `sorted(..., reverse=True)` in
`get_available_dates` (map.py line 53). -/
def dateGE (a b : Date) : Prop := Date.le b a

instance : DecidableRel dateGE := fun a b => by
  unfold dateGE; infer_instance

instance : IsTotal Date dateGE := by
  constructor
  intro a b
  obtain ⟨y1, m1, d1⟩ := a; obtain ⟨y2, m2, d2⟩ := b
  simp only [dateGE, Date.le]; omega

instance : IsTrans Date dateGE := by
  constructor
  intro a b c h1 h2
  obtain ⟨y1, m1, d1⟩ := a; obtain ⟨y2, m2, d2⟩ := b
  obtain ⟨y3, m3, d3⟩ := c
  simp only [dateGE, Date.le] at *; omega

/-- A timezone-naive wall-clock instant at second precision, modelling the
Python `datetime` values that `parse_timestamp` returns for the timestamps
this repository's producer (main.py) writes. -/
structure DateTime where
  year : Nat
  month : Nat
  day : Nat
  hour : Nat
  minute : Nat
  second : Nat
deriving DecidableEq, Repr

/-- Gregorian leap-year test, as in Python's `calendar`/`datetime`. -/
def isLeapYear (y : Nat) : Bool :=
  (y % 4 == 0 && y % 100 != 0) || (y % 400 == 0)

/-- Number of days in a month of a given year (used to validate parsed
dates exactly as `datetime.fromisoformat` does). -/
def daysInMonth (y m : Nat) : Nat :=
  if m = 2 then (if isLeapYear y then 29 else 28)
  else if m = 4 ∨ m = 6 ∨ m = 9 ∨ m = 11 then 30
  else 31

/-- Days elapsed since the civil epoch for a calendar day (standard
days-from-civil computation for years ≥ 1; pure `Nat` arithmetic). -/
def DateTime.toDays (dt : DateTime) : Nat :=
  let y := if dt.month ≤ 2 then dt.year - 1 else dt.year
  let era := y / 400
  let yoe := y % 400
  let mp := (dt.month + 9) % 12
  let doy := (153 * mp + 2) / 5 + (dt.day - 1)
  let doe := yoe * 365 + yoe / 4 - yoe / 100 + doy
  era * 146097 + doe

/-- Absolute second count of a datetime; Python `datetime` subtraction and
comparison agree with subtraction and comparison of these counts. -/
def DateTime.toSeconds (dt : DateTime) : Nat :=
  dt.toDays * 86400 + dt.hour * 3600 + dt.minute * 60 + dt.second

/-- The `.date()` projection used by `df['datetime'].dt.date`
(map.py line 82). -/
def DateTime.toDate (dt : DateTime) : Date :=
  ⟨dt.year, dt.month, dt.day⟩

/-- Numeric value of a decimal digit character. -/
def digitVal (c : Char) : Nat := c.toNat - '0'.toNat

/-- Models `timestamp_str.replace('Z', '+00:00')` from `parse_timestamp`
(map.py line 23): every 'Z' is replaced by the six characters "+00:00". -/
def replaceZ : List Char → List Char
  | [] => []
  | c :: cs =>
    if c = 'Z' then '+' :: '0' :: '0' :: ':' :: '0' :: '0' :: replaceZ cs
    else c :: replaceZ cs

/-- Builds a validated datetime from the digit characters of an ISO-8601
second-precision timestamp, with the range checks `fromisoformat`
performs. -/
def mkDateTime (y1 y2 y3 y4 o1 o2 d1 d2 h1 h2 i1 i2 s1 s2 : Char) :
    Option DateTime :=
  if y1.isDigit && y2.isDigit && y3.isDigit && y4.isDigit &&
      o1.isDigit && o2.isDigit && d1.isDigit && d2.isDigit &&
      h1.isDigit && h2.isDigit && i1.isDigit && i2.isDigit &&
      s1.isDigit && s2.isDigit then
    let y := digitVal y1 * 1000 + digitVal y2 * 100 + digitVal y3 * 10 + digitVal y4
    let mo := digitVal o1 * 10 + digitVal o2
    let d := digitVal d1 * 10 + digitVal d2
    let h := digitVal h1 * 10 + digitVal h2
    let mi := digitVal i1 * 10 + digitVal i2
    let s := digitVal s1 * 10 + digitVal s2
    if 1 ≤ y ∧ 1 ≤ mo ∧ mo ≤ 12 ∧ 1 ≤ d ∧ d ≤ daysInMonth y mo ∧
        h < 24 ∧ mi < 60 ∧ s < 60 then
      some ⟨y, mo, d, h, mi, s⟩
    else none
  else none

/-- Models `parse_timestamp` (map.py lines 21-23):
`datetime.fromisoformat(timestamp_str.replace('Z', '+00:00'))`, restricted
to the second-precision format the repository's producer writes
(`now.replace(microsecond=0).isoformat()` in main.py), optionally followed
by the "+00:00" offset that the 'Z' replacement produces.  Any other string
is a parse failure (`fromisoformat` raises `ValueError`, modelled as
`none`). -/
def parseTimestamp (s : String) : Option DateTime :=
  match replaceZ s.toList with
  | [y1, y2, y3, y4, '-', o1, o2, '-', d1, d2, 'T',
     h1, h2, ':', i1, i2, ':', s1, s2] =>
    mkDateTime y1 y2 y3 y4 o1 o2 d1 d2 h1 h2 i1 i2 s1 s2
  | [y1, y2, y3, y4, '-', o1, o2, '-', d1, d2, 'T',
     h1, h2, ':', i1, i2, ':', s1, s2, '+', '0', '0', ':', '0', '0'] =>
    mkDateTime y1 y2 y3 y4 o1 o2 d1 d2 h1 h2 i1 i2 s1 s2
  | _ => none

/-- One row of records.csv, with the column schema written by main.py:
timestamp, callsign, regis, hex, type, desc, alt, vspeed, lat, lon, track,
dist, azimuth.  Optional columns that may be empty/NaN are `Option`. -/
structure RawRecord where
  timestamp : String
  callsign : Option String
  regis : Option String
  hex : String
  type : Option String
  desc : Option String
  alt : Option ℚ
  vspeed : Option ℚ
  lat : Option ℚ
  lon : Option ℚ
  track : Option ℚ
  dist : Option ℚ
  azimuth : Option ℚ
deriving DecidableEq, Repr

/-- A record together with the derived `datetime` and `date` columns that
`create_aircraft_trajectories` adds (map.py lines 81-82). -/
structure ParsedRecord where
  raw : RawRecord
  datetime : DateTime
  date : Date
deriving DecidableEq, Repr

/-- Models `df['timestamp'].apply(parse_timestamp)` plus
`df['date'] = df['datetime'].dt.date`: parsing every record's timestamp,
propagating the exception (as `none`) if any single timestamp fails. -/
def parseAllRecords : List RawRecord → Option (List ParsedRecord)
  | [] => some []
  | r :: rest =>
    match parseTimestamp r.timestamp with
    | none => none
    | some dt =>
      match parseAllRecords rest with
      | none => none
      | some ps => some (⟨r, dt, dt.toDate⟩ :: ps)

/-- One point of a trajectory, exactly the dict built at map.py
lines 115-124. `lat`/`lon` are copied as-is (possibly NaN/null), a missing
altitude is replaced by 0, and missing text fields by "N/A". -/
structure Point where
  lat : Option ℚ
  lon : Option ℚ
  altitude : ℚ
  timestamp : String
  callsign : String
  registration : String
  datetime : DateTime
  aircraft_type : String
deriving DecidableEq, Repr

/-- The dict construction of map.py lines 115-124. -/
def toPoint (r : ParsedRecord) : Point :=
  { lat := r.raw.lat
    lon := r.raw.lon
    altitude := r.raw.alt.getD 0
    timestamp := r.raw.timestamp
    callsign := r.raw.callsign.getD "N/A"
    registration := r.raw.regis.getD "N/A"
    datetime := r.datetime
    aircraft_type := r.raw.type.getD "N/A" }

/-- `row['datetime'] - current_trajectory[-1]['datetime']` in seconds;
positive when `next` is later (map.py line 106). -/
def gapSeconds (prev next : DateTime) : Int :=
  (next.toSeconds : Int) - (prev.toSeconds : Int)

/-- Lexicographic comparison of character sequences by code point: how
Python compares the `hex` strings when sorting. -/
def lexLtB : List Char → List Char → Bool
  | [], [] => false
  | [], _ :: _ => true
  | _ :: _, [] => false
  | a :: as, b :: bs =>
    if a < b then true else if b < a then false else lexLtB as bs

/-- Strict lexicographic order on the hex strings. -/
def hexLt (a b : String) : Prop := lexLtB a.data b.data = true

instance : DecidableRel hexLt := fun a b => by
  unfold hexLt; infer_instance

/-- The sort key of `df.sort_values(['aircraft_id', 'datetime'])`
(map.py line 92): hex code first, then timestamp. -/
def recLE (a b : ParsedRecord) : Prop :=
  hexLt a.raw.hex b.raw.hex ∨
    (a.raw.hex = b.raw.hex ∧ a.datetime.toSeconds ≤ b.datetime.toSeconds)

instance : DecidableRel recLE := fun a b => by
  unfold recLE; infer_instance

instance : IsTotal ParsedRecord recLE := by
  have hconn : ∀ as bs : List Char, lexLtB as bs = false →
      lexLtB bs as = false → as = bs := by
    intro as
    induction as with
    | nil =>
      intro bs h1 _
      cases bs with
      | nil => rfl
      | cons b bs => simp [lexLtB] at h1
    | cons a as ih =>
      intro bs h1 h2
      cases bs with
      | nil => simp [lexLtB] at h2
      | cons b bs =>
        rw [lexLtB] at h1 h2
        by_cases hab : a < b
        · rw [if_pos hab] at h1; cases h1
        · by_cases hba : b < a
          · rw [if_pos hba] at h2; cases h2
          · rw [if_neg hab, if_neg hba] at h1
            rw [if_neg hba, if_neg hab] at h2
            have he : a = b := le_antisymm (not_lt.1 hba) (not_lt.1 hab)
            rw [he, ih bs h1 h2]
  constructor
  intro a b
  unfold recLE hexLt
  by_cases h1 : lexLtB a.raw.hex.data b.raw.hex.data = true
  · exact Or.inl (Or.inl h1)
  · by_cases h2 : lexLtB b.raw.hex.data a.raw.hex.data = true
    · exact Or.inr (Or.inl h2)
    · have hdata : a.raw.hex.data = b.raw.hex.data :=
        hconn _ _ (Bool.not_eq_true _ ▸ h1) (Bool.not_eq_true _ ▸ h2)
      have hhex : a.raw.hex = b.raw.hex := congrArg String.mk hdata
      rcases Nat.le_total a.datetime.toSeconds b.datetime.toSeconds with
        hs | hs
      · exact Or.inl (Or.inr ⟨hhex, hs⟩)
      · exact Or.inr (Or.inr ⟨hhex.symm, hs⟩)

instance : IsTrans ParsedRecord recLE := by
  have htr : ∀ as bs cs : List Char, lexLtB as bs = true →
      lexLtB bs cs = true → lexLtB as cs = true := by
    intro as
    induction as with
    | nil =>
      intro bs cs h1 h2
      cases bs with
      | nil => simp [lexLtB] at h1
      | cons b bs =>
        cases cs with
        | nil => simp [lexLtB] at h2
        | cons c cs => rw [lexLtB]
    | cons a as ih =>
      intro bs cs h1 h2
      cases bs with
      | nil => simp [lexLtB] at h1
      | cons b bs =>
        cases cs with
        | nil => simp [lexLtB] at h2
        | cons c cs =>
          rw [lexLtB] at h1 h2 ⊢
          by_cases hab : a < b
          · rw [if_pos hab] at h1
            by_cases hbc : b < c
            · rw [if_pos (lt_trans hab hbc)]
            · by_cases hcb : c < b
              · rw [if_neg hbc, if_pos hcb] at h2
                cases h2
              · have he : b = c := le_antisymm (not_lt.1 hcb) (not_lt.1 hbc)
                rw [if_pos (he ▸ hab)]
          · by_cases hba : b < a
            · rw [if_neg hab, if_pos hba] at h1; cases h1
            · have he : a = b := le_antisymm (not_lt.1 hba) (not_lt.1 hab)
              rw [if_neg hab, if_neg hba] at h1
              by_cases hbc : b < c
              · rw [if_pos (he ▸ hbc)]
              · by_cases hcb : c < b
                · rw [if_neg hbc, if_pos hcb] at h2; cases h2
                · rw [if_neg hbc, if_neg hcb] at h2
                  have hac : ¬ a < c := he ▸ hbc
                  have hca : ¬ c < a := he ▸ hcb
                  rw [if_neg hac, if_neg hca]
                  exact ih bs cs h1 h2
  constructor
  intro a b c h1 h2
  unfold recLE hexLt at *
  rcases h1 with h1 | ⟨h1e, h1s⟩ <;> rcases h2 with h2 | ⟨h2e, h2s⟩
  · exact Or.inl (htr _ _ _ h1 h2)
  · exact Or.inl (h2e ▸ h1)
  · exact Or.inl (h1e ▸ h2)
  · exact Or.inr ⟨h1e.trans h2e, le_trans h1s h2s⟩

/-- The stable sort of map.py line 92. -/
def sortRecords (df : List ParsedRecord) : List ParsedRecord :=
  List.insertionSort recLE df

/-- `df[df['aircraft_id'] == aircraft_id]` applied to the sorted frame
(map.py line 98). -/
def perHex (df : List ParsedRecord) (h : String) : List ParsedRecord :=
  (sortRecords df).filter (fun r => decide (r.raw.hex = h))

/-- Worker for `uniqueFirst`: keeps the values not in `seen`, in order,
recording each kept value. -/
def uniqueFirstAux {α : Type} [DecidableEq α] (seen : List α) :
    List α → List α
  | [] => []
  | a :: rest =>
    if a ∈ seen then uniqueFirstAux seen rest
    else a :: uniqueFirstAux (a :: seen) rest

/-- `Series.unique()`: the distinct values in order of first occurrence
(map.py lines 53 and 97). -/
def uniqueFirst {α : Type} [DecidableEq α] (l : List α) : List α :=
  uniqueFirstAux [] l

/-- The inner per-aircraft loop of `create_aircraft_trajectories`
(map.py lines 103-124): walk the rows keeping the open trajectory `cur`
and the emitted trajectories `acc`; a gap above 30 minutes
(`timedelta(minutes=30)` = 1800 s) closes the open trajectory. -/
def trajLoop : List ParsedRecord → List Point → List (List Point) →
    List (List Point)
  | [], cur, acc => if 1 ≤ cur.length then acc ++ [cur] else acc
  | r :: rest, cur, acc =>
    match cur.getLast? with
    | none => trajLoop rest (cur ++ [toPoint r]) acc
    | some lastP =>
      if gapSeconds lastP.datetime r.datetime > 1800 then
        trajLoop rest [toPoint r] (if 1 ≤ cur.length then acc ++ [cur] else acc)
      else trajLoop rest (cur ++ [toPoint r]) acc

/-- Trajectory splitting for one aircraft: the loop started with an empty
open trajectory and no emitted trajectories (map.py lines 100-128,
including the final emission of the still-open trajectory). -/
def splitGaps (recs : List ParsedRecord) : List (List Point) :=
  trajLoop recs [] []

/-- The grouping pass of `create_aircraft_trajectories` after the date
filter (map.py lines 90-130): sort by (hex, datetime), then process each
distinct hex in order of first occurrence. -/
def buildCore (df : List ParsedRecord) : List (List Point) :=
  (uniqueFirst ((sortRecords df).map (fun r => r.raw.hex))).flatMap
    (fun h => splitGaps (perHex df h))

/-- The body of `create_aircraft_trajectories` after timestamp parsing
(map.py lines 84-130): the optional date filter with its early `return []`
on an empty filtered frame, then the grouping pass. -/
def buildTrajectories (df : List ParsedRecord) (selectedDate : Option Date) :
    List (List Point) :=
  match selectedDate with
  | some d =>
    let df2 := df.filter (fun r => decide (r.date = d))
    if df2.isEmpty then [] else buildCore df2
  | none => buildCore df

/-- Models `create_aircraft_trajectories(csv_file_path, selected_date)`
(map.py lines 71-130).  `none` models the `ValueError` that propagates out
of `df['timestamp'].apply(parse_timestamp)` when any record's timestamp is
unparseable. -/
def createAircraftTrajectories (csv : List RawRecord)
    (selectedDate : Option Date) : Option (List (List Point)) :=
  (parseAllRecords csv).map (fun df => buildTrajectories df selectedDate)

/-- Python `int()` applied to a nonnegative-or-negative rational: truncation
toward zero (used for `int(255 * ratio)` at map.py lines 39-40). -/
def truncQ (q : ℚ) : Int :=
  if 0 ≤ q then ⌊q⌋ else ⌈q⌉

/-- Lowercase hexadecimal digit character for a value below 16. -/
def hexDigit (n : Nat) : Char :=
  if n < 10 then Char.ofNat ('0'.toNat + n)
  else Char.ofNat ('a'.toNat + (n - 10))

/-- Worker for `hexDigits` with a structural fuel argument (the fuel `n`
itself always suffices). -/
def hexDigitsAux : Nat → Nat → List Char
  | 0, n => [hexDigit n]
  | fuel + 1, n =>
    if n < 16 then [hexDigit n]
    else hexDigitsAux fuel (n / 16) ++ [hexDigit (n % 16)]

/-- The lowercase hexadecimal digits of `n`, no leading zeros: the digits
both Python `format(n, 'x')` and JavaScript `n.toString(16)` produce for a
nonnegative integer. -/
def hexDigits (n : Nat) : List Char :=
  hexDigitsAux n n

/-- Python `f'{n:02x}'` for a nonnegative channel value: lowercase hex,
left-padded with '0' to width 2 (map.py line 41). -/
def pyHex2 (n : Nat) : String :=
  let ds := hexDigits n
  String.mk (if ds.length < 2 then '0' :: ds else ds)

/-- JavaScript `n.toString(16).padStart(2, '0')` for a nonnegative channel
value (map.py line 273, embedded script). -/
def jsHex2 (n : Nat) : String :=
  let ds := hexDigits n
  String.mk (if ds.length < 2 then '0' :: ds else ds)

/-- Models `get_altitude_color(altitude, min_alt, max_alt)` (map.py
lines 25-41; the Python defaults are `min_alt=0`, `max_alt=6000`).
`none` models a missing (`None`/NaN) altitude. -/
def get_altitude_color (altitude : Option ℚ) (min_alt max_alt : ℚ) : String :=
  match altitude with
  | none => "#808080"
  | some a =>
    if a ≤ min_alt then "#00FF00"
    else if a ≥ max_alt then "#FF0000"
    else
      let rv := (a - min_alt) / (max_alt - min_alt)
      let red := truncQ (255 * rv)
      let green := truncQ (255 * (1 - rv))
      "#" ++ pyHex2 red.toNat ++ pyHex2 green.toNat ++ "00"

/-- Models the JavaScript `getAltitudeColor(altitude)` embedded in the
artifact (map.py lines 265-274): null/undefined gives gray, bounds at 0 and
6000, `Math.floor` for the channel values. -/
def getAltitudeColorJS (altitude : Option ℚ) : String :=
  match altitude with
  | none => "#808080"
  | some a =>
    if a ≤ 0 then "#00FF00"
    else if a ≥ 6000 then "#FF0000"
    else
      let rv := a / 6000
      let red := ⌊255 * rv⌋
      let green := ⌊255 * (1 - rv)⌋
      "#" ++ jsHex2 red.toNat ++ jsHex2 green.toNat ++ "00"

/-- The color of the circle marker the embedded script draws for a
single-point trajectory: `getAltitudeColor(point.altitude)` (map.py
lines 301-306). -/
def renderSinglePointColor (p : Point) : String :=
  getAltitudeColorJS (some p.altitude)

/-- Numeric value of one lowercase or uppercase hexadecimal digit
character (0 for anything else). -/
def hexCharVal (c : Char) : Nat :=
  if c.isDigit then c.toNat - '0'.toNat
  else if 'a' ≤ c ∧ c ≤ 'f' then c.toNat - 'a'.toNat + 10
  else if 'A' ≤ c ∧ c ≤ 'F' then c.toNat - 'A'.toNat + 10
  else 0

/-- The two-hex-digit channel value starting at position `i` of a color
string such as "#rrggbb". -/
def channelVal (s : String) (i : Nat) : Nat :=
  hexCharVal (s.toList.getD i '0') * 16 + hexCharVal (s.toList.getD (i + 1) '0')

/-- Red channel of a "#rrggbb" color string. -/
def redOf (s : String) : Nat := channelVal s 1

/-- Green channel of a "#rrggbb" color string. -/
def greenOf (s : String) : Nat := channelVal s 3

/-- Blue channel of a "#rrggbb" color string. -/
def blueOf (s : String) : Nat := channelVal s 5

/-- The date list of `get_available_dates` under successful parsing:
`sorted(df['date'].unique(), reverse=True)` (map.py line 53). -/
def availableDatesOf (df : List ParsedRecord) : List Date :=
  List.insertionSort dateGE (uniqueFirst (df.map (fun r => r.date)))

/-- Models `get_available_dates(csv_file_path)` (map.py lines 47-57):
distinct dates sorted newest first; the `except` branch prints a
diagnostic and returns an empty list.  The second component collects the
printed diagnostics. -/
def getAvailableDates (csv : List RawRecord) : List Date × List String :=
  match parseAllRecords csv with
  | some df => (availableDatesOf df, [])
  | none => ([], ["Error reading dates from CSV"])

/-- Latest datetime of the frame: `df['datetime'].max()` (map.py
line 65). -/
def maxDatetime : List ParsedRecord → Option DateTime
  | [] => none
  | r :: rest =>
    match maxDatetime rest with
    | none => some r.datetime
    | some m =>
      some (if m.toSeconds ≤ r.datetime.toSeconds then r.datetime else m)

/-- Models `get_last_detection(csv_file_path)` (map.py lines 59-69): the
`except` branch returns `None`. -/
def getLastDetection (csv : List RawRecord) : Option DateTime :=
  match parseAllRecords csv with
  | some df => maxDatetime df
  | none => none

/-- The claim-relevant content of the interactive artifact
`create_map_with_filter` assembles: the dropdown date list in order, the
initial date the embedded script passes to `updateMap`, the per-date
trajectory data serialized for the script, what the initial `updateMap`
call displays, the last-detection stamp and the all-dates trajectory
set. -/
structure MapArtifact where
  availableDates : List Date
  initialDate : Date
  trajectoriesByDate : List (Date × List (List Point))
  initialDisplay : List (List Point)
  lastDetection : Option DateTime
  allTrajectories : List (List Point)
deriving DecidableEq, Repr

/-- Models `create_map_with_filter(csv_file_path)` (map.py lines 132-457):
`none` with printed diagnostics when no dates are available or no
trajectories are found, otherwise the artifact.  After a successful
`get_available_dates` every later parse succeeds too, so the per-date
reconstructions use `Option.getD`. -/
def createMapWithFilter (csv : List RawRecord) :
    Option MapArtifact × List String :=
  let dm := getAvailableDates csv
  match dm.1 with
  | [] => (none, dm.2 ++ ["No data available"])
  | d0 :: drest =>
    let last := getLastDetection csv
    match createAircraftTrajectories csv none with
    | none => (none, dm.2 ++ ["Error processing data"])
    | some allT =>
      if allT.isEmpty then (none, dm.2 ++ ["No trajectories found"])
      else
        let byDate := (d0 :: drest).map
          (fun d => (d, (createAircraftTrajectories csv (some d)).getD []))
        (some { availableDates := d0 :: drest
                initialDate := d0
                trajectoriesByDate := byDate
                initialDisplay :=
                  (createAircraftTrajectories csv (some d0)).getD []
                lastDetection := last
                allTrajectories := allT }, dm.2)

/-- Structural version of `trajLoop` used for proofs: `prev` is the record
whose point ends the open trajectory `cur` and the comparison with the next
record's timestamp decides the split, exactly as the loop does. -/
def chunksFrom (prev : ParsedRecord) (cur : List Point) :
    List ParsedRecord → List (List Point)
  | [] => [cur]
  | r :: rest =>
    if gapSeconds prev.datetime r.datetime > 1800 then
      cur :: chunksFrom r [toPoint r] rest
    else chunksFrom r (cur ++ [toPoint r]) rest

/-- `splitGaps` in structural form. -/
def splitChunks : List ParsedRecord → List (List Point)
  | [] => []
  | r :: rest => chunksFrom r [toPoint r] rest

/-- Index of the block containing position `i` of the concatenation of
`ts`, used to say which trajectory a record was placed in. -/
def blockOf {α : Type} : List (List α) → Nat → Nat
  | [], _ => 0
  | t :: ts, i => if i < t.length then 0 else blockOf ts (i - t.length) + 1

/-- Timestamp order on parsed records. -/
def dtLE (a b : ParsedRecord) : Prop :=
  a.datetime.toSeconds ≤ b.datetime.toSeconds

/-- A records.csv row with only the fields the trajectory builder reads
populated; the unread columns are empty. -/
def mkRecord (ts hx : String) (alt lat lon : Option ℚ) : RawRecord :=
  { timestamp := ts, callsign := none, regis := none, hex := hx,
    type := none, desc := none, alt := alt, vspeed := none,
    lat := lat, lon := lon, track := none, dist := none, azimuth := none }

/-- A one-record store whose record has a null latitude. -/
def csvNullPos : List RawRecord :=
  [mkRecord "2024-03-05T10:00:00" "39AD12" (some 1000) none (some 20)]

/-- The point the builder produces for the null-latitude record. -/
def ptNullPos : Point :=
  ⟨none, some 20, 1000, "2024-03-05T10:00:00", "N/A", "N/A",
    ⟨2024, 3, 5, 10, 0, 0⟩, "N/A"⟩

/-- The parsed frame of `csvNullPos`. -/
def dfNullPos : List ParsedRecord := (parseAllRecords csvNullPos).getD []

/-- The all-dates trajectories of `csvNullPos`. -/
def trajsNullPos : List (List Point) :=
  (createAircraftTrajectories csvNullPos none).getD []

/-- A store with one aircraft and a 45-minute gap between its second and
third records. -/
def csvGap : List RawRecord :=
  [mkRecord "2024-03-05T10:00:00" "A1B2C3" (some 1000) (some 1) (some 2),
   mkRecord "2024-03-05T10:15:00" "A1B2C3" (some 1100) (some 3) (some 4),
   mkRecord "2024-03-05T11:00:00" "A1B2C3" (some 1200) (some 5) (some 6)]

/-- The parsed frame of `csvGap`. -/
def dfGap : List ParsedRecord := (parseAllRecords csvGap).getD []

/-- First point of `csvGap`. -/
def ptGap1 : Point :=
  ⟨some 1, some 2, 1000, "2024-03-05T10:00:00", "N/A", "N/A",
    ⟨2024, 3, 5, 10, 0, 0⟩, "N/A"⟩

/-- Second point of `csvGap`. -/
def ptGap2 : Point :=
  ⟨some 3, some 4, 1100, "2024-03-05T10:15:00", "N/A", "N/A",
    ⟨2024, 3, 5, 10, 15, 0⟩, "N/A"⟩

/-- The all-dates trajectories of `csvGap`. -/
def trajsGap : List (List Point) :=
  (createAircraftTrajectories csvGap none).getD []

/-- A store with one aircraft whose two records are 20 minutes apart but on
either side of midnight. -/
def csvMid : List RawRecord :=
  [mkRecord "2024-01-01T23:50:00" "AB12EF" none (some 1) (some 2),
   mkRecord "2024-01-02T00:10:00" "AB12EF" (some 500) (some 3) (some 4)]

/-- The parsed frame of `csvMid`. -/
def dfMid : List ParsedRecord := (parseAllRecords csvMid).getD []

/-- First (pre-midnight) point of `csvMid`. -/
def pM1 : Point :=
  ⟨some 1, some 2, 0, "2024-01-01T23:50:00", "N/A", "N/A",
    ⟨2024, 1, 1, 23, 50, 0⟩, "N/A"⟩

/-- Second (post-midnight) point of `csvMid`. -/
def pM2 : Point :=
  ⟨some 3, some 4, 500, "2024-01-02T00:10:00", "N/A", "N/A",
    ⟨2024, 1, 2, 0, 10, 0⟩, "N/A"⟩

/-- A one-record store whose record has a null altitude. -/
def csvNullAlt : List RawRecord :=
  [mkRecord "2024-03-05T10:00:00" "39AD12" none (some 10) (some 20)]

/-- The point the builder produces for the null-altitude record. -/
def ptNullAlt : Point :=
  ⟨some 10, some 20, 0, "2024-03-05T10:00:00", "N/A", "N/A",
    ⟨2024, 3, 5, 10, 0, 0⟩, "N/A"⟩

/-- The parsed form of the null-altitude record. -/
def prNullAlt : ParsedRecord :=
  ⟨mkRecord "2024-03-05T10:00:00" "39AD12" none (some 10) (some 20),
    ⟨2024, 3, 5, 10, 0, 0⟩, ⟨2024, 3, 5⟩⟩

/-- A store with one malformed (unparseable) timestamp. -/
def csvBad : List RawRecord :=
  [mkRecord "not-a-timestamp" "AB12EF" none none none]

/-- Fallback artifact for extracting a computed artifact from an
`Option`. -/
def artFallback : MapArtifact :=
  ⟨[], ⟨0, 0, 0⟩, [], [], none, []⟩

/-- The artifact computed for `csvMid`. -/
def artMid : MapArtifact := (createMapWithFilter csvMid).1.getD artFallback

/-- The diagnostics printed for `csvMid`. -/
def msgsMid : List String := (createMapWithFilter csvMid).2

/-! ### Helper lemmas about the embedded definitions -/

theorem toPoint_datetime (r : ParsedRecord) :
    (toPoint r).datetime = r.datetime := rfl

theorem mem_uniqueFirstAux {α : Type} [DecidableEq α] (l : List α) :
    ∀ (seen : List α) (x : α),
      x ∈ uniqueFirstAux seen l ↔ x ∈ l ∧ x ∉ seen := by
  induction l with
  | nil => intro seen x; simp [uniqueFirstAux]
  | cons a rest ih =>
    intro seen x
    by_cases h : a ∈ seen
    · rw [uniqueFirstAux, if_pos h, ih, List.mem_cons]
      constructor
      · exact fun ⟨h1, h2⟩ => ⟨Or.inr h1, h2⟩
      · rintro ⟨rfl | h1, h2⟩
        · exact absurd h h2
        · exact ⟨h1, h2⟩
    · rw [uniqueFirstAux, if_neg h, List.mem_cons, ih, List.mem_cons,
        List.mem_cons]
      constructor
      · rintro (rfl | ⟨h1, h2⟩)
        · exact ⟨Or.inl rfl, h⟩
        · exact ⟨Or.inr h1, fun hx => h2 (Or.inr hx)⟩
      · rintro ⟨rfl | h1, h2⟩
        · exact Or.inl rfl
        · by_cases hxa : x = a
          · exact Or.inl hxa
          · exact Or.inr ⟨h1, fun hx => (hx.elim hxa h2)⟩

theorem nodup_uniqueFirstAux {α : Type} [DecidableEq α] (l : List α) :
    ∀ seen : List α, (uniqueFirstAux seen l).Nodup := by
  induction l with
  | nil => intro seen; simp [uniqueFirstAux]
  | cons a rest ih =>
    intro seen
    by_cases h : a ∈ seen
    · rw [uniqueFirstAux, if_pos h]; exact ih seen
    · rw [uniqueFirstAux, if_neg h, List.nodup_cons]
      refine ⟨fun hmem => ?_, ih _⟩
      exact ((mem_uniqueFirstAux rest _ a).1 hmem).2 (List.mem_cons_self a _)

theorem mem_uniqueFirst {α : Type} [DecidableEq α] {l : List α} {x : α} :
    x ∈ uniqueFirst l ↔ x ∈ l := by
  rw [uniqueFirst, mem_uniqueFirstAux]
  simp

theorem nodup_uniqueFirst {α : Type} [DecidableEq α] (l : List α) :
    (uniqueFirst l).Nodup :=
  nodup_uniqueFirstAux l []

theorem flatten_flatMap {α β : Type} (l : List α) (f : α → List (List β)) :
    (l.flatMap f).flatten = l.flatMap (fun a => (f a).flatten) := by
  induction l with
  | nil => rfl
  | cons a rest ih =>
    simp only [List.flatMap_cons, List.flatten_append, ih]

theorem perm_flatMap_congr {α β : Type} {l : List α} {f g : α → List β}
    (h : ∀ a ∈ l, (f a).Perm (g a)) : (l.flatMap f).Perm (l.flatMap g) := by
  induction l with
  | nil => exact List.Perm.refl _
  | cons a rest ih =>
    simp only [List.flatMap_cons]
    exact (h a (List.mem_cons_self a rest)).append
      (ih fun b hb => h b (List.mem_cons_of_mem a hb))

theorem flatMap_filter_key_perm {α κ : Type} [DecidableEq κ] (key : α → κ) :
    ∀ (ks : List κ) (l : List α), ks.Nodup → (∀ a ∈ l, key a ∈ ks) →
      (ks.flatMap (fun k => l.filter (fun a => decide (key a = k)))).Perm l := by
  intro ks
  induction ks with
  | nil =>
    intro l _ hcov
    have : l = [] := by
      cases l with
      | nil => rfl
      | cons a rest => exact absurd (hcov a (List.mem_cons_self a rest)) (by simp)
    simp [this]
  | cons k ks ih =>
    intro l hnd hcov
    have hk : k ∉ ks := (List.nodup_cons.1 hnd).1
    simp only [List.flatMap_cons]
    have hstep :
        (ks.flatMap fun k2 => l.filter (fun a => decide (key a = k2))) =
          ks.flatMap fun k2 =>
            (l.filter (fun a => !decide (key a = k))).filter
              (fun a => decide (key a = k2)) := by
      apply List.flatMap_congr
      intro k2 hk2
      rw [List.filter_filter]
      apply List.filter_congr
      intro a _
      by_cases hka : key a = k2
      · have hne : ¬ k2 = k := fun he => hk (he ▸ hk2)
        simp [hka, hne]
      · simp [hka]
    rw [hstep]
    have hperm2 := ih (l.filter (fun a => !decide (key a = k)))
      (List.nodup_cons.1 hnd).2
      (by
        intro a ha
        rcases List.mem_filter.1 ha with ⟨hal, hne⟩
        rcases List.mem_cons.1 (hcov a hal) with heq | hin
        · simp [heq] at hne
        · exact hin)
    exact (hperm2.append_left _).trans (List.filter_append_perm _ l)

/-! ### A structural reformulation of the trajectory-splitting loop -/

theorem trajLoop_cons_of_getLast (r : ParsedRecord) (rest : List ParsedRecord)
    (cur : List Point) (acc : List (List Point)) (lastP : Point)
    (hlast : cur.getLast? = some lastP) :
    trajLoop (r :: rest) cur acc =
      if gapSeconds lastP.datetime r.datetime > 1800 then
        trajLoop rest [toPoint r]
          (if 1 ≤ cur.length then acc ++ [cur] else acc)
      else trajLoop rest (cur ++ [toPoint r]) acc := by
  rw [trajLoop, hlast]

theorem trajLoop_eq_chunksFrom :
    ∀ (rest : List ParsedRecord) (prev : ParsedRecord) (cur : List Point)
      (acc : List (List Point)), cur ≠ [] →
      cur.getLast? = some (toPoint prev) →
      trajLoop rest cur acc = acc ++ chunksFrom prev cur rest := by
  intro rest
  induction rest with
  | nil =>
    intro prev cur acc hne _
    have hlen : 1 ≤ cur.length := List.length_pos.2 hne
    simp [trajLoop, chunksFrom, hlen]
  | cons r rest ih =>
    intro prev cur acc hne hlast
    have hlen : 1 ≤ cur.length := List.length_pos.2 hne
    rw [trajLoop_cons_of_getLast r rest cur acc _ hlast]
    by_cases hgap : gapSeconds (toPoint prev).datetime r.datetime > 1800
    · rw [if_pos hgap, if_pos hlen,
        ih r [toPoint r] _ (by simp) (by simp),
        chunksFrom, if_pos (by simpa [toPoint_datetime] using hgap)]
      simp
    · rw [if_neg hgap,
        ih r (cur ++ [toPoint r]) _ (by simp) (by simp),
        chunksFrom, if_neg (by simpa [toPoint_datetime] using hgap)]

theorem splitGaps_eq_splitChunks (recs : List ParsedRecord) :
    splitGaps recs = splitChunks recs := by
  cases recs with
  | nil => rfl
  | cons r rest =>
    show trajLoop (r :: rest) [] [] = _
    rw [trajLoop]
    show trajLoop rest [toPoint r] [] = _
    rw [trajLoop_eq_chunksFrom rest r [toPoint r] [] (by simp) (by simp)]
    rfl

theorem flatten_chunksFrom :
    ∀ (rest : List ParsedRecord) (prev : ParsedRecord) (cur : List Point),
      (chunksFrom prev cur rest).flatten = cur ++ rest.map toPoint := by
  intro rest
  induction rest with
  | nil => intro prev cur; simp [chunksFrom]
  | cons r rest ih =>
    intro prev cur
    rw [chunksFrom]
    by_cases hgap : gapSeconds prev.datetime r.datetime > 1800
    · rw [if_pos hgap]
      simp [ih]
    · rw [if_neg hgap]
      simp [ih]

theorem flatten_splitGaps (recs : List ParsedRecord) :
    (splitGaps recs).flatten = recs.map toPoint := by
  rw [splitGaps_eq_splitChunks]
  cases recs with
  | nil => rfl
  | cons r rest => simp [splitChunks, flatten_chunksFrom]

theorem chain'_chunksFrom (R : Point → Point → Prop) :
    ∀ (rest : List ParsedRecord) (prev : ParsedRecord) (cur : List Point),
      List.Chain' R (cur ++ rest.map toPoint) →
      ∀ b ∈ chunksFrom prev cur rest, List.Chain' R b := by
  intro rest
  induction rest with
  | nil =>
    intro prev cur hch b hb
    simp only [chunksFrom, List.mem_singleton] at hb
    subst hb
    simpa using hch
  | cons r rest ih =>
    intro prev cur hch b hb
    rw [chunksFrom] at hb
    by_cases hgap : gapSeconds prev.datetime r.datetime > 1800
    · rw [if_pos hgap] at hb
      rcases List.mem_cons.1 hb with rfl | hb2
      · exact (List.chain'_append.1 hch).1
      · refine ih r [toPoint r] ?_ b hb2
        have := (List.chain'_append.1 hch).2.1
        simpa using this
    · rw [if_neg hgap] at hb
      refine ih r (cur ++ [toPoint r]) ?_ b hb
      rw [List.append_assoc, List.singleton_append]
      simpa using hch

theorem blockOf_cons_add {α : Type} (t : List α) (ts : List (List α))
    (j : Nat) : blockOf (t :: ts) (t.length + j) = blockOf ts j + 1 := by
  rw [blockOf, if_neg (by omega)]
  congr 1
  congr 1
  omega

theorem blockOf_chunksFrom_zero :
    ∀ (rest : List ParsedRecord) (prev : ParsedRecord) (cur : List Point)
      (i : Nat), i < cur.length → blockOf (chunksFrom prev cur rest) i = 0 := by
  intro rest
  induction rest with
  | nil =>
    intro prev cur i hi
    simp [chunksFrom, blockOf, hi]
  | cons r rest ih =>
    intro prev cur i hi
    rw [chunksFrom]
    by_cases hgap : gapSeconds prev.datetime r.datetime > 1800
    · rw [if_pos hgap, blockOf, if_pos hi]
    · rw [if_neg hgap]
      exact ih r (cur ++ [toPoint r]) i
        (by simp only [List.length_append, List.length_singleton]; omega)

theorem blockOf_chunksFrom_boundary (r : ParsedRecord)
    (rest : List ParsedRecord) (prev : ParsedRecord) (cur : List Point)
    (hne : cur ≠ []) :
    (blockOf (chunksFrom prev cur (r :: rest)) (cur.length - 1) =
        blockOf (chunksFrom prev cur (r :: rest)) cur.length ↔
      gapSeconds prev.datetime r.datetime ≤ 1800) := by
  have hlen : 1 ≤ cur.length := List.length_pos.2 hne
  rw [chunksFrom]
  by_cases hgap : gapSeconds prev.datetime r.datetime > 1800
  · rw [if_pos hgap]
    have h1 : blockOf (cur :: chunksFrom r [toPoint r] rest) (cur.length - 1)
        = 0 := by
      rw [blockOf, if_pos (by omega)]
    have h2 : blockOf (cur :: chunksFrom r [toPoint r] rest) cur.length
        = blockOf (chunksFrom r [toPoint r] rest) 0 + 1 := by
      have := blockOf_cons_add cur (chunksFrom r [toPoint r] rest) 0
      simpa using this
    rw [h1, h2]
    constructor
    · intro h; omega
    · intro h; omega
  · rw [if_neg hgap]
    have h1 : blockOf (chunksFrom r (cur ++ [toPoint r]) rest)
        (cur.length - 1) = 0 :=
      blockOf_chunksFrom_zero rest r _ _
        (by simp only [List.length_append, List.length_singleton]; omega)
    have h2 : blockOf (chunksFrom r (cur ++ [toPoint r]) rest)
        cur.length = 0 :=
      blockOf_chunksFrom_zero rest r _ _
        (by simp only [List.length_append, List.length_singleton]; omega)
    rw [h1, h2]
    simp
    omega

theorem blockOf_chunksFrom_adjacent :
    ∀ (rest : List ParsedRecord) (prev : ParsedRecord) (cur : List Point)
      (k : Nat) (hk : k + 1 < rest.length), cur ≠ [] →
      (blockOf (chunksFrom prev cur rest) (cur.length + k) =
          blockOf (chunksFrom prev cur rest) (cur.length + k + 1) ↔
        gapSeconds (rest.get ⟨k, by omega⟩).datetime
            (rest.get ⟨k + 1, hk⟩).datetime ≤ 1800) := by
  intro rest
  induction rest with
  | nil => intro prev cur k hk; exact absurd hk (by simp)
  | cons r rest ih =>
    intro prev cur k hk hne
    rw [chunksFrom]
    by_cases hgap : gapSeconds prev.datetime r.datetime > 1800
    · rw [if_pos hgap]
      have e1 := blockOf_cons_add cur (chunksFrom r [toPoint r] rest) k
      have e2 := blockOf_cons_add cur (chunksFrom r [toPoint r] rest) (k + 1)
      rw [show cur.length + k + 1 = cur.length + (k + 1) by omega, e1, e2,
        Nat.add_left_inj]
      cases k with
      | zero =>
        cases rest with
        | nil => simp at hk
        | cons e es =>
          have hb := blockOf_chunksFrom_boundary e es r [toPoint r] (by simp)
          simpa using hb
      | succ k2 =>
        have hk2 : k2 + 1 < rest.length := by
          simpa [List.length_cons] using hk
        have := ih r [toPoint r] k2 hk2 (by simp)
        simp only [List.length_singleton] at this
        rw [Nat.add_comm 1 k2] at this
        simpa using this
    · rw [if_neg hgap]
      cases k with
      | zero =>
        cases rest with
        | nil => simp at hk
        | cons e es =>
          have hb := blockOf_chunksFrom_boundary e es r (cur ++ [toPoint r])
            (by simp)
          simp only [List.length_append, List.length_singleton] at hb
          rw [show cur.length + 0 = cur.length + 1 - 1 by omega,
            show cur.length + 0 + 1 = cur.length + 1 by omega]
          simpa using hb
      | succ k2 =>
        have hk2 : k2 + 1 < rest.length := by
          simpa [List.length_cons] using hk
        have := ih r (cur ++ [toPoint r]) k2 hk2 (by simp)
        simp only [List.length_append, List.length_singleton] at this
        rw [show cur.length + (k2 + 1) = cur.length + 1 + k2 by omega,
          show cur.length + 1 + k2 + 1 = cur.length + 1 + (k2 + 1) by omega]
        simpa using this

theorem blockOf_splitGaps_adjacent (l : List ParsedRecord) (k : Nat)
    (hk : k + 1 < l.length) :
    (blockOf (splitGaps l) k = blockOf (splitGaps l) (k + 1) ↔
      gapSeconds (l.get ⟨k, by omega⟩).datetime
        (l.get ⟨k + 1, hk⟩).datetime ≤ 1800) := by
  cases l with
  | nil => simp at hk
  | cons r rest =>
    rw [splitGaps_eq_splitChunks]
    show blockOf (chunksFrom r [toPoint r] rest) k =
        blockOf (chunksFrom r [toPoint r] rest) (k + 1) ↔ _
    cases k with
    | zero =>
      cases rest with
      | nil => simp at hk
      | cons e es =>
        have hb := blockOf_chunksFrom_boundary e es r [toPoint r] (by simp)
        simpa using hb
    | succ k2 =>
      have hk2 : k2 + 1 < rest.length := by simpa using hk
      have := blockOf_chunksFrom_adjacent rest r [toPoint r] k2 hk2 (by simp)
      simp only [List.length_singleton] at this
      rw [Nat.add_comm 1 k2] at this
      simpa using this

theorem lexLtB_irrefl : ∀ as : List Char, lexLtB as as = false := by
  intro as
  induction as with
  | nil => rfl
  | cons a as ih =>
    rw [lexLtB, if_neg (lt_irrefl a), if_neg (lt_irrefl a)]
    exact ih

theorem pairwise_dtLE_perHex (df : List ParsedRecord) (h : String) :
    (perHex df h).Pairwise dtLE := by
  have hs : (sortRecords df).Pairwise recLE :=
    List.sorted_insertionSort recLE df
  have hf : (perHex df h).Pairwise recLE := hs.filter _
  refine List.Pairwise.imp_of_mem ?_ hf
  intro a b ha hb hab
  have ha2 : a.raw.hex = h := by
    simpa using (List.mem_filter.1 ha).2
  have hb2 : b.raw.hex = h := by
    simpa using (List.mem_filter.1 hb).2
  rcases hab with hlt | ⟨_, hle⟩
  · rw [hexLt, ha2, hb2, lexLtB_irrefl h.data] at hlt
    cases hlt
  · exact hle

theorem chain'_splitGaps (l : List ParsedRecord) (hl : l.Pairwise dtLE) :
    ∀ t ∈ splitGaps l,
      t.Chain'
        (fun p q : Point => p.datetime.toSeconds ≤ q.datetime.toSeconds) := by
  rw [splitGaps_eq_splitChunks]
  cases l with
  | nil => simp [splitChunks]
  | cons r rest =>
    intro t ht
    refine chain'_chunksFrom _ rest r [toPoint r] ?_ t ht
    have hch : List.Chain' dtLE (r :: rest) := hl.chain'
    have hmap : List.Chain'
        (fun p q : Point => p.datetime.toSeconds ≤ q.datetime.toSeconds)
        ((r :: rest).map toPoint) := (List.chain'_map toPoint).2 hch
    simpa using hmap

theorem flatten_buildCore_perm (df : List ParsedRecord) :
    (buildCore df).flatten.Perm (df.map toPoint) := by
  rw [buildCore, flatten_flatMap]
  have h1 : ((uniqueFirst ((sortRecords df).map (fun r => r.raw.hex))).flatMap
        (fun h => (splitGaps (perHex df h)).flatten)) =
      ((uniqueFirst ((sortRecords df).map (fun r => r.raw.hex))).flatMap
        (fun h => (perHex df h).map toPoint)) := by
    apply List.flatMap_congr
    intro h _
    rw [flatten_splitGaps]
  rw [h1, ← List.map_flatMap]
  have h2 : ((uniqueFirst ((sortRecords df).map (fun r => r.raw.hex))).flatMap
      (fun h => perHex df h)).Perm (sortRecords df) := by
    simp only [perHex]
    exact flatMap_filter_key_perm (fun r : ParsedRecord => r.raw.hex) _ _
      (nodup_uniqueFirst _)
      (fun a ha => mem_uniqueFirst.2 (List.mem_map_of_mem _ ha))
  exact (h2.map toPoint).trans
    ((List.perm_insertionSort recLE df).map toPoint)

theorem flatten_buildTrajectories_some_perm (df : List ParsedRecord)
    (d : Date) :
    (buildTrajectories df (some d)).flatten.Perm
      ((df.filter (fun r => decide (r.date = d))).map toPoint) := by
  show (if (df.filter (fun r => decide (r.date = d))).isEmpty then []
      else buildCore (df.filter (fun r => decide (r.date = d)))).flatten.Perm _
  by_cases he : (df.filter (fun r => decide (r.date = d))).isEmpty
  · rw [if_pos he, List.isEmpty_iff.1 he]
    simp
  · rw [if_neg he]
    exact flatten_buildCore_perm _

theorem nodup_availableDatesOf (df : List ParsedRecord) :
    (availableDatesOf df).Nodup := by
  rw [availableDatesOf]
  exact ((List.perm_insertionSort dateGE _).nodup_iff).2 (nodup_uniqueFirst _)

theorem mem_availableDatesOf {df : List ParsedRecord} {d : Date} :
    d ∈ availableDatesOf df ↔ d ∈ df.map (fun r => r.date) := by
  rw [availableDatesOf, List.mem_insertionSort, mem_uniqueFirst]

theorem pairwise_availableDatesOf (df : List ParsedRecord) :
    (availableDatesOf df).Pairwise dateGE :=
  List.sorted_insertionSort dateGE _

theorem flatten_union_perm (df : List ParsedRecord) :
    ((availableDatesOf df).flatMap
        (fun d => buildTrajectories df (some d))).flatten.Perm
      ((buildTrajectories df none).flatten) := by
  rw [flatten_flatMap]
  have h1 : ((availableDatesOf df).flatMap
        (fun d => (buildTrajectories df (some d)).flatten)).Perm
      ((availableDatesOf df).flatMap
        (fun d => (df.filter (fun r => decide (r.date = d))).map toPoint)) :=
    perm_flatMap_congr (fun d _ => flatten_buildTrajectories_some_perm df d)
  have h2 : ((availableDatesOf df).flatMap
      (fun d => df.filter (fun r => decide (r.date = d)))).Perm df :=
    flatMap_filter_key_perm (fun r : ParsedRecord => r.date) _ _
      (nodup_availableDatesOf df)
      (fun a ha => mem_availableDatesOf.2 (List.mem_map_of_mem _ ha))
  refine (h1.trans ?_).trans (flatten_buildCore_perm df).symm
  rw [← List.map_flatMap]
  exact h2.map toPoint

/-! ### Color mapper lemmas -/

theorem truncQ_eq_floor {q : ℚ} (h : 0 ≤ q) : truncQ q = ⌊q⌋ :=
  if_pos h

theorem hexDigitsAux_small (fuel n : Nat) (hn : n < 16) :
    hexDigitsAux fuel n = [hexDigit n] := by
  cases fuel with
  | zero => rfl
  | succ m => rw [hexDigitsAux, if_pos hn]

theorem hexDigits_small (n : Nat) (hn : n < 16) :
    hexDigits n = [hexDigit n] :=
  hexDigitsAux_small n n hn

theorem hexDigits_two (n : Nat) (h16 : 16 ≤ n) (h256 : n < 256) :
    hexDigits n = [hexDigit (n / 16), hexDigit (n % 16)] := by
  obtain ⟨m, rfl⟩ : ∃ m, n = m + 1 := ⟨n - 1, by omega⟩
  rw [hexDigits, hexDigitsAux, if_neg (by omega),
    hexDigitsAux_small m _ (by omega)]
  rfl

theorem pyHex2_eq_jsHex2 (n : Nat) : pyHex2 n = jsHex2 n := rfl

theorem hexCharVal_hexDigit : ∀ d : Nat, d < 16 →
    hexCharVal (hexDigit d) = d := by decide

theorem pyHex2_chars (n : Nat) (hn : n < 256) :
    ∃ c1 c2, pyHex2 n = String.mk [c1, c2] ∧
      hexCharVal c1 * 16 + hexCharVal c2 = n := by
  by_cases h16 : n < 16
  · refine ⟨'0', hexDigit n, ?_, ?_⟩
    · rw [pyHex2]
      simp [hexDigits_small n h16]
    · have : hexCharVal '0' = 0 := by decide
      rw [this, hexCharVal_hexDigit n h16]
      omega
  · refine ⟨hexDigit (n / 16), hexDigit (n % 16), ?_, ?_⟩
    · rw [pyHex2]
      simp [hexDigits_two n (by omega) hn]
    · rw [hexCharVal_hexDigit (n / 16) (by omega),
        hexCharVal_hexDigit (n % 16) (by omega)]
      omega

theorem channels_of_gradient_string (a b : Nat) (ha : a < 256)
    (hb : b < 256) :
    redOf ("#" ++ pyHex2 a ++ pyHex2 b ++ "00") = a ∧
      greenOf ("#" ++ pyHex2 a ++ pyHex2 b ++ "00") = b ∧
      blueOf ("#" ++ pyHex2 a ++ pyHex2 b ++ "00") = 0 := by
  obtain ⟨c1, c2, hab, hval⟩ := pyHex2_chars a ha
  obtain ⟨c3, c4, hcd, hval2⟩ := pyHex2_chars b hb
  rw [hab, hcd]
  have hchars : ("#" ++ String.mk [c1, c2] ++ String.mk [c3, c4] ++
      "00").toList = ['#', c1, c2, c3, c4, '0', '0'] := by
    simp [String.toList, String.data_append]
  constructor
  · rw [redOf, channelVal, hchars]
    simpa using hval
  constructor
  · rw [greenOf, channelVal, hchars]
    simpa using hval2
  · rw [blueOf, channelVal, hchars]
    have : hexCharVal '0' = 0 := by decide
    simp [this]

theorem gac_none : get_altitude_color none 0 6000 = "#808080" := rfl

theorem jsc_none : getAltitudeColorJS none = "#808080" := rfl

theorem gac_low (a : ℚ) (h : a ≤ 0) :
    get_altitude_color (some a) 0 6000 = "#00FF00" := by
  rw [get_altitude_color, if_pos h]

theorem jsc_low (a : ℚ) (h : a ≤ 0) :
    getAltitudeColorJS (some a) = "#00FF00" := by
  rw [getAltitudeColorJS, if_pos h]

theorem gac_high (a : ℚ) (h0 : ¬ a ≤ 0) (h : a ≥ 6000) :
    get_altitude_color (some a) 0 6000 = "#FF0000" := by
  rw [get_altitude_color, if_neg h0, if_pos h]

theorem jsc_high (a : ℚ) (h0 : ¬ a ≤ 0) (h : a ≥ 6000) :
    getAltitudeColorJS (some a) = "#FF0000" := by
  rw [getAltitudeColorJS, if_neg h0, if_pos h]

theorem gac_mid (a : ℚ) (h1 : 0 < a) (h2 : a < 6000) :
    get_altitude_color (some a) 0 6000 =
      "#" ++ pyHex2 (truncQ (255 * (a / 6000))).toNat ++
        pyHex2 (truncQ (255 * (1 - a / 6000))).toNat ++ "00" := by
  rw [get_altitude_color, if_neg (not_le.2 h1), if_neg (not_le.2 h2)]
  simp only [sub_zero]

theorem jsc_mid (a : ℚ) (h1 : 0 < a) (h2 : a < 6000) :
    getAltitudeColorJS (some a) =
      "#" ++ jsHex2 (⌊255 * (a / 6000)⌋).toNat ++
        jsHex2 (⌊255 * (1 - a / 6000)⌋).toNat ++ "00" := by
  rw [getAltitudeColorJS, if_neg (not_le.2 h1), if_neg (not_le.2 h2)]

theorem red_ratio_bounds (a : ℚ) (h1 : 0 < a) (h2 : a < 6000) :
    0 ≤ 255 * (a / 6000) ∧ 255 * (a / 6000) < 255 := by
  have hr1 : 0 < a / 6000 := div_pos h1 (by norm_num)
  have hr2 : a / 6000 < 1 := (div_lt_one (by norm_num)).2 h2
  constructor
  · positivity
  · nlinarith

theorem green_ratio_bounds (a : ℚ) (h1 : 0 < a) (h2 : a < 6000) :
    0 ≤ 255 * (1 - a / 6000) ∧ 255 * (1 - a / 6000) < 255 := by
  have hr1 : 0 < a / 6000 := div_pos h1 (by norm_num)
  have hr2 : a / 6000 < 1 := (div_lt_one (by norm_num)).2 h2
  constructor
  · nlinarith
  · nlinarith

theorem floor_channel_range {x : ℚ} (h0 : 0 ≤ x) (h255 : x < 255) :
    0 ≤ ⌊x⌋ ∧ ⌊x⌋ < 255 := by
  constructor
  · exact Int.floor_nonneg.2 h0
  · exact Int.floor_lt.2 (by exact_mod_cast h255)

theorem gac_mid_channels (a : ℚ) (h1 : 0 < a) (h2 : a < 6000) :
    redOf (get_altitude_color (some a) 0 6000) =
        (⌊255 * (a / 6000)⌋).toNat ∧
      greenOf (get_altitude_color (some a) 0 6000) =
        (⌊255 * (1 - a / 6000)⌋).toNat := by
  have hr := red_ratio_bounds a h1 h2
  have hg := green_ratio_bounds a h1 h2
  have hfr := floor_channel_range hr.1 hr.2
  have hfg := floor_channel_range hg.1 hg.2
  rw [gac_mid a h1 h2, truncQ_eq_floor hr.1, truncQ_eq_floor hg.1]
  have hc := channels_of_gradient_string (⌊255 * (a / 6000)⌋).toNat
    (⌊255 * (1 - a / 6000)⌋).toNat (by omega) (by omega)
  exact ⟨hc.1, hc.2.1⟩

theorem channels_pure_green :
    redOf "#00FF00" = 0 ∧ greenOf "#00FF00" = 255 := by decide

theorem channels_pure_red :
    redOf "#FF0000" = 255 ∧ greenOf "#FF0000" = 0 := by decide

theorem parseAllRecords_eq_none {csv : List RawRecord} {r : RawRecord}
    (hr : r ∈ csv) (hp : parseTimestamp r.timestamp = none) :
    parseAllRecords csv = none := by
  induction csv with
  | nil => cases hr
  | cons a rest ih =>
    rcases List.mem_cons.1 hr with rfl | hr2
    · rw [parseAllRecords, hp]
    · rw [parseAllRecords]
      cases h : parseTimestamp a.timestamp with
      | none => rfl
      | some dt => rw [ih hr2]

theorem Date.le_refl (d : Date) : Date.le d d :=
  Or.inr ⟨rfl, Or.inr ⟨rfl, Nat.le_refl _⟩⟩

/-! ### The claims -/

/-- C4: the artifact-generation-side color mapping (Python
`get_altitude_color` with its default bounds 0 and 6000) and the
client-side JavaScript `getAltitudeColor` embedded in the artifact return
the same color string for every altitude input, including a missing
altitude. -/
theorem c4_python_js_color_agree (alt : Option ℚ) :
    get_altitude_color alt 0 6000 = getAltitudeColorJS alt := by
  match alt with
  | none => rfl
  | some a =>
    by_cases h1 : a ≤ 0
    · rw [gac_low a h1, jsc_low a h1]
    · by_cases h2 : a ≥ 6000
      · rw [gac_high a h1 h2, jsc_high a h1 h2]
      · have h1p : 0 < a := not_le.1 h1
        have h2p : a < 6000 := not_le.1 h2
        rw [gac_mid a h1p h2p, jsc_mid a h1p h2p,
          truncQ_eq_floor (red_ratio_bounds a h1p h2p).1,
          truncQ_eq_floor (green_ratio_bounds a h1p h2p).1]
        rfl

/-- C4 witness: the two mappers agree at a concrete mid-range altitude. -/
theorem c4_witness :
    get_altitude_color (some 100) 0 6000 = getAltitudeColorJS (some 100) :=
  c4_python_js_color_agree (some 100)

/-- C5 counterexample: a rendered record with null altitude is colored
pure green, not the fixed gray the claim requires — the builder substitutes
altitude 0 before the color mapper ever sees the missing value. -/
theorem c5_counterexample :
    createAircraftTrajectories csvNullAlt none = some [[ptNullAlt]] ∧
      ptNullAlt.altitude = 0 ∧
      renderSinglePointColor ptNullAlt = "#00FF00" ∧
      "#00FF00" ≠ "#808080" := by
  refine ⟨by decide, rfl, ?_, by decide⟩
  rw [renderSinglePointColor]
  exact jsc_low 0 le_rfl

/-- C5 amended: a record with null altitude is assigned altitude 0 by the
trajectory builder (map.py line 118), so the map renders it pure green
"#00FF00", not the gray "#808080" — the gray branch of the color mappers is
unreachable for rendered records. -/
theorem c5_null_altitude_renders_green (pr : ParsedRecord)
    (h : pr.raw.alt = none) :
    (toPoint pr).altitude = 0 ∧
      renderSinglePointColor (toPoint pr) = "#00FF00" ∧
      renderSinglePointColor (toPoint pr) ≠ "#808080" := by
  have h0 : (toPoint pr).altitude = 0 := by simp [toPoint, h]
  have hc : renderSinglePointColor (toPoint pr) = "#00FF00" := by
    rw [renderSinglePointColor, h0]
    exact jsc_low 0 le_rfl
  refine ⟨h0, hc, ?_⟩
  rw [hc]
  decide

/-- C5 witness: the amended statement at the concrete null-altitude
record. -/
theorem c5_witness :
    (toPoint prNullAlt).altitude = 0 ∧
      renderSinglePointColor (toPoint prNullAlt) = "#00FF00" ∧
      renderSinglePointColor (toPoint prNullAlt) ≠ "#808080" :=
  c5_null_altitude_renders_green prNullAlt rfl

/-- C6: the altitude color mapper returns pure green for every altitude
≤ 0, pure red for every altitude ≥ the 6000 ft ceiling, equal red and green
channel values at half the ceiling, and a zero blue channel strictly
between the bounds. -/
theorem c6_gradient_anchors :
    (∀ a : ℚ, a ≤ 0 → get_altitude_color (some a) 0 6000 = "#00FF00") ∧
      (∀ a : ℚ, 6000 ≤ a → get_altitude_color (some a) 0 6000 = "#FF0000") ∧
      redOf (get_altitude_color (some 3000) 0 6000) =
        greenOf (get_altitude_color (some 3000) 0 6000) ∧
      (∀ a : ℚ, 0 < a → a < 6000 →
        blueOf (get_altitude_color (some a) 0 6000) = 0) := by
  refine ⟨fun a h => gac_low a h,
    fun a h => gac_high a (by linarith) h, ?_, ?_⟩
  · have hm := gac_mid_channels 3000 (by norm_num) (by norm_num)
    have e1 : (⌊(255 : ℚ) * (3000 / 6000)⌋ : Int) = 127 := by norm_num
    have e2 : (⌊(255 : ℚ) * (1 - 3000 / 6000)⌋ : Int) = 127 := by norm_num
    rw [hm.1, hm.2, e1, e2]
  · intro a ha1 ha2
    have hr := red_ratio_bounds a ha1 ha2
    have hg := green_ratio_bounds a ha1 ha2
    have hfr := floor_channel_range hr.1 hr.2
    have hfg := floor_channel_range hg.1 hg.2
    rw [gac_mid a ha1 ha2, truncQ_eq_floor hr.1, truncQ_eq_floor hg.1]
    exact (channels_of_gradient_string _ _ (by omega) (by omega)).2.2

/-- C6 witness: the anchor facts at concrete altitudes. -/
theorem c6_witness :
    get_altitude_color (some (-5)) 0 6000 = "#00FF00" ∧
      get_altitude_color (some 7000) 0 6000 = "#FF0000" ∧
      blueOf (get_altitude_color (some 100) 0 6000) = 0 :=
  ⟨c6_gradient_anchors.1 (-5) (by norm_num),
    c6_gradient_anchors.2.1 7000 (by norm_num),
    c6_gradient_anchors.2.2.2 100 (by norm_num) (by norm_num)⟩

/-- C7: for altitudes a1 < a2 within [0, 6000] the red channel of the
mapped color is non-decreasing and the green channel non-increasing. -/
theorem c7_color_monotonicity (a1 a2 : ℚ) (h0 : 0 ≤ a1) (h12 : a1 < a2)
    (h6 : a2 ≤ 6000) :
    redOf (get_altitude_color (some a1) 0 6000) ≤
        redOf (get_altitude_color (some a2) 0 6000) ∧
      greenOf (get_altitude_color (some a2) 0 6000) ≤
        greenOf (get_altitude_color (some a1) 0 6000) := by
  have h2pos : 0 < a2 := lt_of_le_of_lt h0 h12
  by_cases hA : a1 ≤ 0
  · rw [gac_low a1 hA]
    by_cases hB : a2 ≥ 6000
    · rw [gac_high a2 (by linarith) hB]
      exact ⟨by rw [channels_pure_green.1]; exact Nat.zero_le _,
        by rw [channels_pure_red.2]; exact Nat.zero_le _⟩
    · have hB2 : a2 < 6000 := not_le.1 hB
      have hm2 := gac_mid_channels a2 h2pos hB2
      constructor
      · rw [channels_pure_green.1]
        exact Nat.zero_le _
      · rw [hm2.2, channels_pure_green.2]
        have hg := green_ratio_bounds a2 h2pos hB2
        have hfg := floor_channel_range hg.1 hg.2
        omega
  · have h1pos : 0 < a1 := not_le.1 hA
    have h1lt : a1 < 6000 := lt_of_lt_of_le h12 h6
    have hm1 := gac_mid_channels a1 h1pos h1lt
    by_cases hB : a2 ≥ 6000
    · rw [gac_high a2 (by linarith) hB]
      constructor
      · rw [hm1.1, channels_pure_red.1]
        have hr := red_ratio_bounds a1 h1pos h1lt
        have hfr := floor_channel_range hr.1 hr.2
        omega
      · rw [channels_pure_red.2]
        exact Nat.zero_le _
    · have hB2 : a2 < 6000 := not_le.1 hB
      have hm2 := gac_mid_channels a2 h2pos hB2
      have hdiv : a1 / 6000 ≤ a2 / 6000 := by
        gcongr
      constructor
      · rw [hm1.1, hm2.1]
        apply Int.toNat_le_toNat
        apply Int.floor_le_floor
        linarith
      · rw [hm1.2, hm2.2]
        apply Int.toNat_le_toNat
        apply Int.floor_le_floor
        linarith

/-- C7 witness: monotonicity at the concrete pair 1000 < 2000. -/
theorem c7_witness :
    redOf (get_altitude_color (some 1000) 0 6000) ≤
        redOf (get_altitude_color (some 2000) 0 6000) ∧
      greenOf (get_altitude_color (some 2000) 0 6000) ≤
        greenOf (get_altitude_color (some 1000) 0 6000) :=
  c7_color_monotonicity 1000 2000 (by norm_num) (by norm_num) (by norm_num)

/-- C1 counterexample: the record of `csvNullPos` has a null latitude, yet
the builder places it in a trajectory — records with null position are not
excluded before grouping. -/
theorem c1_counterexample :
    createAircraftTrajectories csvNullPos none = some [[ptNullPos]] ∧
      ptNullPos.lat = none := by
  exact ⟨by decide, rfl⟩

/-- C1 amended: every successfully parsed record — whether or not its
latitude or longitude is null — contributes exactly one point to the
builder's output: the flattened output is a permutation of the records'
points.  (The original claim's exclusion of null-position records does not
happen in the code.) -/
theorem c1_every_record_placed_once (csv : List RawRecord)
    (df : List ParsedRecord) (trajs : List (List Point))
    (hp : parseAllRecords csv = some df)
    (hres : createAircraftTrajectories csv none = some trajs) :
    trajs.flatten.Perm (df.map toPoint) := by
  rw [createAircraftTrajectories, hp] at hres
  simp only [Option.map_some', Option.some_inj] at hres
  subst hres
  exact flatten_buildCore_perm df

/-- C1 witness: the amended statement at the concrete one-record store. -/
theorem c1_witness : trajsNullPos.flatten.Perm (dfNullPos.map toPoint) :=
  c1_every_record_placed_once csvNullPos dfNullPos trajsNullPos rfl rfl

/-- Blocks produced for one aircraft are among the builder's output. -/
theorem splitGaps_perHex_subset_buildCore (df : List ParsedRecord)
    (hx : String) (hne : perHex df hx ≠ []) :
    ∀ t ∈ splitGaps (perHex df hx), t ∈ buildCore df := by
  intro t ht
  rw [buildCore]
  refine List.mem_flatMap.2 ⟨hx, ?_, ht⟩
  obtain ⟨r, hr⟩ := List.exists_mem_of_ne_nil _ hne
  have hrs : r ∈ sortRecords df := (List.mem_filter.1 hr).1
  have hxe : r.raw.hex = hx := by simpa using (List.mem_filter.1 hr).2
  exact mem_uniqueFirst.2 (hxe ▸ List.mem_map_of_mem _ hrs)

/-- C2: two chronologically adjacent records of the same aircraft hex
(both with non-null position) are placed in the same trajectory by the
builder if and only if the gap between their timestamps is at most
30 minutes (1800 s); a strictly larger gap starts a new trajectory.  The
records are the k-th and (k+1)-th entries of the aircraft's sorted record
list, and "same trajectory" is equality of the `blockOf` trajectory index
in the aircraft's `splitGaps` output, whose blocks all appear in
`buildCore`. -/
theorem c2_gap_splitting (csv : List RawRecord) (df : List ParsedRecord)
    (hx : String) (k : Nat)
    (hp : parseAllRecords csv = some df)
    (hk : k + 1 < (perHex df hx).length)
    (hlat1 : ((perHex df hx).get ⟨k, by omega⟩).raw.lat.isSome = true)
    (hlon1 : ((perHex df hx).get ⟨k, by omega⟩).raw.lon.isSome = true)
    (hlat2 : ((perHex df hx).get ⟨k + 1, hk⟩).raw.lat.isSome = true)
    (hlon2 : ((perHex df hx).get ⟨k + 1, hk⟩).raw.lon.isSome = true) :
    (blockOf (splitGaps (perHex df hx)) k =
        blockOf (splitGaps (perHex df hx)) (k + 1) ↔
      gapSeconds ((perHex df hx).get ⟨k, by omega⟩).datetime
          ((perHex df hx).get ⟨k + 1, hk⟩).datetime ≤ 1800) ∧
      ∀ t ∈ splitGaps (perHex df hx), t ∈ buildCore df := by
  constructor
  · exact blockOf_splitGaps_adjacent (perHex df hx) k hk
  · apply splitGaps_perHex_subset_buildCore
    intro hnil
    rw [hnil] at hk
    simp at hk

/-- C8: within every trajectory produced by
`create_aircraft_trajectories`, the timestamps of consecutive points are
non-decreasing. -/
theorem c8_trajectories_time_ordered (csv : List RawRecord)
    (sel : Option Date) (trajs : List (List Point))
    (hres : createAircraftTrajectories csv sel = some trajs) :
    ∀ t ∈ trajs,
      t.Chain'
        (fun p q : Point =>
          p.datetime.toSeconds ≤ q.datetime.toSeconds) := by
  cases hp : parseAllRecords csv with
  | none =>
    rw [createAircraftTrajectories, hp] at hres
    simp at hres
  | some df =>
    rw [createAircraftTrajectories, hp] at hres
    simp only [Option.map_some', Option.some_inj] at hres
    subst hres
    have hcore : ∀ (df2 : List ParsedRecord) (t : List Point),
        t ∈ buildCore df2 →
        t.Chain'
          (fun p q : Point =>
            p.datetime.toSeconds ≤ q.datetime.toSeconds) := by
      intro df2 t ht
      rw [buildCore] at ht
      rcases List.mem_flatMap.1 ht with ⟨hx, _, htin⟩
      exact chain'_splitGaps _ (pairwise_dtLE_perHex df2 hx) t htin
    intro t ht
    cases sel with
    | none => exact hcore df t ht
    | some d =>
      rw [buildTrajectories] at ht
      by_cases he :
          (df.filter (fun r => decide (r.date = d))).isEmpty
      · rw [if_pos he] at ht
        cases ht
      · rw [if_neg he] at ht
        exact hcore _ t ht

/-- C2 witness: in `csvGap` the second and third records of the aircraft
are 45 minutes apart, and the builder indeed separates them: the
equivalence holds at this concrete input. -/
theorem c2_witness :
    (blockOf (splitGaps (perHex dfGap "A1B2C3")) 1 =
        blockOf (splitGaps (perHex dfGap "A1B2C3")) 2 ↔
      gapSeconds ((perHex dfGap "A1B2C3").get ⟨1, by decide⟩).datetime
          ((perHex dfGap "A1B2C3").get ⟨2, by decide⟩).datetime ≤ 1800) :=
  (c2_gap_splitting csvGap dfGap "A1B2C3" 1 rfl (by decide) (by decide)
    (by decide) (by decide) (by decide)).1

/-- C8 witness: the first trajectory built from `csvGap` is chronologically
ordered. -/
theorem c8_witness :
    ([ptGap1, ptGap2] : List Point).Chain'
      (fun p q : Point => p.datetime.toSeconds ≤ q.datetime.toSeconds) :=
  c8_trajectories_time_ordered csvGap none trajsGap rfl
    [ptGap1, ptGap2] (by decide)

/-- C3 counterexample: for `csvMid` the all-dates run yields one trajectory
holding both records, while the union of the per-date runs yields two
single-point trajectories — the two trajectory sets differ, because the
gap of 20 minutes crosses midnight. -/
theorem c3_counterexample :
    createAircraftTrajectories csvMid none = some [[pM1, pM2]] ∧
      ((availableDatesOf dfMid).flatMap
          (fun d => (createAircraftTrajectories csvMid (some d)).getD [])) =
        [[pM2], [pM1]] ∧
      ¬ ([pM1, pM2] ∈ ([[pM2], [pM1]] : List (List Point))) :=
  ⟨by decide, by decide, by decide⟩

/-- C3 amended: the union over all calendar dates of the per-date
reconstructions contains exactly the records of the all-dates
reconstruction — no record is double-counted or omitted, each record being
assigned to the date of its own timestamp — but only as a multiset of
record points: the trajectory partition itself can differ when a
trajectory spans midnight (see the counterexample). -/
theorem c3_union_of_per_date_runs_preserves_records (csv : List RawRecord)
    (df : List ParsedRecord) (hp : parseAllRecords csv = some df) :
    (((availableDatesOf df).flatMap
        (fun d =>
          (createAircraftTrajectories csv (some d)).getD [])).flatten).Perm
      (((createAircraftTrajectories csv none).getD []).flatten) := by
  have hsel : ∀ sel, createAircraftTrajectories csv sel =
      some (buildTrajectories df sel) := by
    intro sel
    rw [createAircraftTrajectories, hp, Option.map_some']
  simp only [hsel, Option.getD_some]
  exact flatten_union_perm df

/-- C3 witness: the amended statement at the concrete midnight-crossing
store. -/
theorem c3_witness :
    (((availableDatesOf dfMid).flatMap
        (fun d =>
          (createAircraftTrajectories csvMid (some d)).getD [])).flatten).Perm
      (((createAircraftTrajectories csvMid none).getD []).flatten) :=
  c3_union_of_per_date_runs_preserves_records csvMid dfMid rfl

/-- C9: if any record's timestamp fails parsing, the render pass produces
no artifact and prints the diagnostic from `get_available_dates` — the
malformed record is not silently dropped with the rest rendered. -/
theorem c9_malformed_record_fails_render (csv : List RawRecord)
    (r : RawRecord) (hr : r ∈ csv)
    (hp : parseTimestamp r.timestamp = none) :
    (createMapWithFilter csv).1 = none ∧
      "Error reading dates from CSV" ∈ (createMapWithFilter csv).2 := by
  have hnone : parseAllRecords csv = none := parseAllRecords_eq_none hr hp
  simp [createMapWithFilter, getAvailableDates, hnone]

/-- C9 witness: a store containing one unparseable timestamp yields no
artifact and the diagnostic. -/
theorem c9_witness :
    (createMapWithFilter csvBad).1 = none ∧
      "Error reading dates from CSV" ∈ (createMapWithFilter csvBad).2 :=
  c9_malformed_record_fails_render csvBad
    (mkRecord "not-a-timestamp" "AB12EF" none none none)
    (by decide) (by decide)

/-- C10: when the artifact is produced, its dropdown lists the available
dates newest first (strictly descending), the initial date is the most
recent date present, and the initially displayed trajectories are exactly
the single-date reconstruction for that date — not the union of all
dates. -/
theorem c10_initial_view_latest_date (csv : List RawRecord)
    (art : MapArtifact) (msgs : List String)
    (hres : createMapWithFilter csv = (some art, msgs)) :
    art.availableDates.Pairwise (fun a b => Date.lt b a) ∧
      art.initialDate ∈ art.availableDates ∧
      (∀ d ∈ art.availableDates, Date.le d art.initialDate) ∧
      art.initialDisplay =
        (createAircraftTrajectories csv (some art.initialDate)).getD [] := by
  cases hp : parseAllRecords csv with
  | none =>
    simp [createMapWithFilter, getAvailableDates, hp] at hres
  | some df =>
    have hc : createAircraftTrajectories csv none =
        some (buildTrajectories df none) := by
      rw [createAircraftTrajectories, hp, Option.map_some']
    rw [createMapWithFilter] at hres
    simp only [getAvailableDates, hp, hc] at hres
    cases hdl : availableDatesOf df with
    | nil => rw [hdl] at hres; simp at hres
    | cons d0 drest =>
      rw [hdl] at hres
      dsimp only [] at hres
      by_cases hemp : (buildTrajectories df none).isEmpty
      · rw [if_pos hemp] at hres
        simp at hres
      · rw [if_neg hemp] at hres
        rw [Prod.ext_iff] at hres
        obtain ⟨h1, h2⟩ := hres
        obtain rfl := Option.some.inj h1
        refine ⟨?_, ?_, ?_, ?_⟩
        · have hpair := pairwise_availableDatesOf df
          have hnd := nodup_availableDatesOf df
          rw [hdl] at hpair hnd
          exact (hpair.and hnd).imp (fun h => ⟨h.1, Ne.symm h.2⟩)
        · exact List.mem_cons_self d0 drest
        · intro d hd
          have hpair := pairwise_availableDatesOf df
          rw [hdl] at hpair
          rcases List.mem_cons.1 hd with rfl | hd2
          · exact Date.le_refl d
          · exact (List.pairwise_cons.1 hpair).1 d hd2
        · rfl

/-- C10 witness: for the two-date store `csvMid` the artifact's dropdown
is strictly descending, its initial date is the latest date, and the
initial display is the single-date reconstruction. -/
theorem c10_witness :
    artMid.availableDates.Pairwise (fun a b => Date.lt b a) ∧
      artMid.initialDate ∈ artMid.availableDates ∧
      Date.le ⟨2024, 1, 1⟩ artMid.initialDate ∧
      artMid.initialDisplay =
        (createAircraftTrajectories csvMid (some artMid.initialDate)).getD
          [] := by
  have h := c10_initial_view_latest_date csvMid artMid msgsMid rfl
  exact ⟨h.1, h.2.1, h.2.2.1 ⟨2024, 1, 1⟩ (by decide), h.2.2.2⟩

end Wrsjet
